import Mathlib

/-!
Verification development for the `mcp-neo4j` server (`src/neo4j-client.ts` and
the MCP entry point). The TypeScript source is shallowly embedded: the pure
tail of `getNeo4jSchema` (everything after the four introspection queries have
been materialised) becomes a Lean function over explicit introspection data,
`processParams` becomes a recursive function over a JS-value tree, and the
module-level driver variable becomes explicit state passing.
-/

/-- One entry of the `nodeTypes` / `relationshipTypes` lists:
`\x7b type: record.get(label), count: record.get(count).toNumber() \x7d`. -/
structure TypeCount where
  type : String
  count : Nat
  deriving DecidableEq, Repr

/-- The four in-memory results built from the introspection queries
(lines 207-235 of `neo4j-client.ts`): `nodeTypes`, `nodeProperties`,
`relationshipTypes`, `relationshipProperties`.  Property indexes are
association lists mirroring JS objects with string keys in insertion order. -/
structure LiveData where
  nodeTypes : List TypeCount
  nodeProperties : List (String × List String)
  relationshipTypes : List TypeCount
  relationshipProperties : List (String × List String)
  deriving DecidableEq, Repr

/-- The `domain?: string | string[]` argument of `getNeo4jSchema`. -/
inductive DomainArg where
  | str (s : String)
  | arr (l : List String)
  deriving DecidableEq, Repr

/-- JS truthiness of the `domain` argument as tested by `if (domain)`:
`undefined` and the empty string are falsy, every array is truthy. -/
def domainTruthy : Option DomainArg → Bool
  | none => false
  | some (DomainArg.str s) => !(s == "")
  | some (DomainArg.arr _) => true

/-- `Array.isArray(domain) ? domain : [domain]` (line 240). -/
def DomainArg.toList : DomainArg → List String
  | DomainArg.str s => [s]
  | DomainArg.arr l => l

/-- First-occurrence deduplication with an accumulator of already-seen
elements; `jsSetDedup` below matches the JS idiom `[...new Set(xs)]`. -/
def jsSetDedupGo : List String → List String → List String
  | [], _ => []
  | x :: xs, seen =>
      if x ∈ seen then jsSetDedupGo xs seen else x :: jsSetDedupGo xs (x :: seen)

/-- `[...new Set(xs)]`: drop later duplicates, keep first-occurrence order. -/
def jsSetDedup (l : List String) : List String := jsSetDedupGo l []

/-- `DOMAIN_NODE_TYPES` (lines 99-124 of `neo4j-client.ts`). -/
def DOMAIN_NODE_TYPES (d : String) : List String :=
  if d = "code" then
    ["Codebase", "Package", "Directory", "File", "Module", "Namespace", "Class",
     "Interface", "Enum", "TypeAlias", "Function", "Method", "Constructor",
     "Property", "Variable", "Parameter", "JsxElement", "JsxAttribute", "Test",
     "Component", "Dependency", "TypeDefinition", "ASTNodeInfo", "InterfaceProperty",
     "VueComponent", "ComponentTemplate", "ComponentScript", "ComponentStyle",
     "Prop", "Emit", "ReactiveState", "Composable", "SassVariable", "SassMixin", "SassModule"]
  else if d = "mind" then
    ["Hypothesis", "Reflection", "Insight", "Question", "Decision", "Pattern",
     "Task", "Subtask", "Agent", "Verification", "Result", "Orientation"]
  else if d = "crypto" then
    ["Layer0", "Layer1", "Layer2", "Layer3", "Token", "InteroperabilitySolution", "Organization",
     "Event", "Person", "DApp", "Protocol", "Validator", "GovernanceStructure",
     "RegulatoryApproach", "TechnicalArchitecture", "UserDemographic",
     "L2Sequencer", "L2Validator", "L2DApp", "L2Bridge", "L2SecurityIncident"]
  else if d = "media" then
    ["Artist", "Album", "Song", "Tour", "Residency", "Award", "Media", "RecordLabel",
     "Event", "Organization", "Product", "Location", "Genre", "LyricSection",
     "Annotation", "Theme", "LinguisticDevice", "Source"]
  else []

/-- `DOMAIN_RELATIONSHIP_TYPES` (lines 127-164 of `neo4j-client.ts`). -/
def DOMAIN_RELATIONSHIP_TYPES (d : String) : List String :=
  if d = "code" then
    ["IMPORTS", "IMPORTS_FROM_PACKAGE", "IMPORTS_TYPES", "IMPORTS_TYPES_FROM_PACKAGE",
     "EXPORTS_LOCAL", "EXPORTS_DEFAULT", "REEXPORTS", "REEXPORTS_FROM_PACKAGE",
     "REEXPORTS_ALL", "EXTENDS", "INTERFACE_EXTENDS", "IMPLEMENTS", "CALLS",
     "CONTAINS", "HAS_METHOD", "HAS_PARAMETER", "HAS_PROPERTY", "REFERENCES_TYPE",
     "REFERENCES_VARIABLE", "DEPENDS_ON", "IS_DECORATED_BY", "TESTS", "RENDERS",
     "USES_HOOK", "AST_PARENT_CHILD", "DEFINES_VARIABLE", "DEFINES_FUNCTION",
     "DEFINES_INTERFACE", "DEFINES_CLASS", "DEFINES_TYPE_ALIAS", "DEFINES_ENUM",
     "DEFINES_NAMESPACE", "DEFINES_MODULE", "DEFINES_COMPONENT", "DEFINES_VUE_COMPONENT",
     "PROVIDES_PROPS", "LISTENS_TO", "USES_SLOT", "USES_COMPOSABLE", "IMPORTS_AUTO",
     "REGISTERS_AUTO", "IMPORTS_SASS", "USES_VARIABLE", "INCLUDES_MIXIN"]
  else if d = "mind" then
    ["SUGGESTS", "BASED_ON", "LEADS_TO", "ANSWERS", "CONTRADICTS", "REFINES",
     "IDENTIFIES", "EVOLVES_TO", "APPLIES_TO", "IMPLEMENTS_DECISION", "ADDRESSES",
     "RESOLVES", "APPLIES", "MODIFIES", "TASK_DEPENDS_ON", "TASK_BLOCKED_BY",
     "DECOMPOSES_TO", "EXECUTED_BY", "VERIFIED_BY"]
  else if d = "crypto" then
    ["BUILDS_ON", "CONNECTS", "ISSUES", "DEVELOPS", "SUPPORTS", "BRIDGES", "PARTNERS_WITH",
     "COMPETES_WITH", "FORKED_FROM", "INVESTED_IN", "GOVERNS", "INFLUENCED_BY",
     "PARTICIPATES_IN_GOVERNANCE", "CONTRIBUTES_REVENUE_TO", "HAS_REGULATORY_APPROACH",
     "HAS_TECHNICAL_ARCHITECTURE", "HAS_USER_DEMOGRAPHIC", "PROVIDES_TECHNOLOGY", "RELATES_TO",
     "SECURES", "L2_BRIDGES", "HOSTS", "AUDITS", "UPGRADES"]
  else if d = "media" then
    ["BORN_IN", "HAS_FAMILY_RELATIONSHIP", "RELEASED", "CONTAINS", "HEADLINED",
     "SUPPORTED", "COLLABORATED_ON", "FEATURING", "WROTE", "PRODUCED",
     "SIGNED_WITH", "RELEASED_BY", "RECEIVED", "ACTED_IN", "VOICED_IN",
     "APPEARED_IN", "JUDGED", "HOSTED", "PERFORMED_AT", "INFLUENCED_BY",
     "HAS_GENRE", "ENDORSED", "LAUNCHED", "FOUNDED", "SUPPORTS",
     "AMBASSADOR_FOR", "HELD_IN", "MUSIC_VIDEO_FOR", "HAS_LYRICS",
     "IS_ANNOTATED_BY", "REFERENCES_SOURCE", "PROVIDED_BY_USER",
     "EXPLORES_THEME", "IDENTIFIES_THEME", "EMPLOYS_DEVICE", "IDENTIFIES_DEVICE"]
  else []

/-- The valid-domain check `['code', 'mind', 'crypto', 'media'].includes(d)`
(line 242). -/
def VALID_DOMAINS : List String := ["code", "mind", "crypto", "media"]

/-- The accumulation loop of lines 260-266:
`allDomainNodeTypes = [...allDomainNodeTypes, ...typesForThisDomain]`. -/
def allTypesFor (tax : String → List String) (validDomains : List String) : List String :=
  validDomains.foldl (fun acc d => acc ++ tax d) []

/-- The result object of `getNeo4jSchema`; `domains := none` models the
branches whose output object carries no `domains` key. -/
structure SchemaOutput where
  domains : Option (List String)
  nodeTypes : List TypeCount
  nodeProperties : List (String × List String)
  relationshipTypes : List TypeCount
  relationshipProperties : List (String × List String)
  deriving DecidableEq, Repr

/-- The unfiltered output object (lines 246-252 and 333-340): the live data
verbatim, with no `domains` key. -/
def fullOutput (live : LiveData) : SchemaOutput :=
  { domains := none
    nodeTypes := live.nodeTypes
    nodeProperties := live.nodeProperties
    relationshipTypes := live.relationshipTypes
    relationshipProperties := live.relationshipProperties }

/-- JS object lookup `m[k]` on an association list. -/
def assocLookup (l : List (String × List String)) (k : String) : Option (List String) :=
  (l.find? fun p => p.1 == k).map Prod.snd

/-- Lines 272-298, factored once for nodes and relationships: the live
TypeCount entries whose name is in the unioned list `u`, followed by synthetic
count-0 entries for every name of `u` absent from the live list. -/
def completeTypes (liveTC : List TypeCount) (u : List String) : List TypeCount :=
  liveTC.filter (fun nt => u.contains nt.type)
    ++ (u.filter fun t => !((liveTC.map TypeCount.type).contains t)).map
        (fun t => { type := t, count := 0 })

/-- Lines 300-320, factored once for nodes and relationships: for every name
of `u`, its live property list when present, else the empty list. -/
def filteredProps (liveProps : List (String × List String)) (u : List String) :
    List (String × List String) :=
  u.map fun t => (t, (assocLookup liveProps t).getD [])

/-- The domain-scoped branch of `getNeo4jSchema` (lines 255-330), given the
already-validated nonempty list of domains. -/
def scopedOutput (live : LiveData) (validDomains : List String) : SchemaOutput :=
  let allDomainNodeTypes := jsSetDedup (allTypesFor DOMAIN_NODE_TYPES validDomains)
  let allDomainRelationshipTypes := jsSetDedup (allTypesFor DOMAIN_RELATIONSHIP_TYPES validDomains)
  { domains := some validDomains
    nodeTypes := completeTypes live.nodeTypes allDomainNodeTypes
    nodeProperties := filteredProps live.nodeProperties allDomainNodeTypes
    relationshipTypes := completeTypes live.relationshipTypes allDomainRelationshipTypes
    relationshipProperties := filteredProps live.relationshipProperties allDomainRelationshipTypes }

/-- The pure tail of `getNeo4jSchema` (lines 238-340): domain truthiness test,
single-string normalisation, validity filtering, lenient fallback, and the
scoped synthesis. -/
def getNeo4jSchemaPure (live : LiveData) (domain : Option DomainArg) : SchemaOutput :=
  if domainTruthy domain then
    match domain with
    | none => fullOutput live
    | some arg =>
      let domains := arg.toList
      let validDomains := domains.filter fun d => VALID_DOMAINS.contains d
      if validDomains.length = 0 then fullOutput live
      else scopedOutput live validDomains
  else fullOutput live

/-- The valid domains a given `domain` argument yields (empty whenever the
unfiltered branch is taken). -/
def validDomainsOf : Option DomainArg → List String
  | none => []
  | some arg => arg.toList.filter fun d => VALID_DOMAINS.contains d

/-- JS object assignment `m[k] = v` on a key already present: update in
place, preserving insertion order. -/
def assocUpdate (l : List (String × List String)) (k : String) (v : List String) :
    List (String × List String) :=
  l.map fun p => if p.1 == k then (p.1, v) else p

/-- One iteration of the property-merging loops (lines 213-220 and 228-235):
`if (!m[label]) m[label] = []; m[label] = [...new Set([...m[label], ...properties])]`. -/
def addPropsRecord (acc : List (String × List String)) (label : String) (props : List String) :
    List (String × List String) :=
  match assocLookup acc label with
  | some existing => assocUpdate acc label (jsSetDedup (existing ++ props))
  | none => acc ++ [(label, jsSetDedup props)]

/-- The property-merging loops in full: fold the (label, properties) records
into a JS object modelled as an association list. -/
def buildPropertyIndex (records : List (String × List String)) :
    List (String × List String) :=
  records.foldl (fun acc r => addPropsRecord acc r.1 r.2) []

/-- The raw rows of the four introspection queries (lines 174-205), as
(name, count) and (name, properties) pairs. -/
structure IntrospectionData where
  nodeTypeRecords : List (String × Nat)
  nodePropertyRecords : List (String × List String)
  relTypeRecords : List (String × Nat)
  relPropertyRecords : List (String × List String)
  deriving DecidableEq, Repr

/-- Lines 207-235: materialise the live data from the query rows. -/
def liveOf (d : IntrospectionData) : LiveData :=
  { nodeTypes := d.nodeTypeRecords.map fun r => { type := r.1, count := r.2 }
    nodeProperties := buildPropertyIndex d.nodePropertyRecords
    relationshipTypes := d.relTypeRecords.map fun r => { type := r.1, count := r.2 }
    relationshipProperties := buildPropertyIndex d.relPropertyRecords }

/-- `getNeo4jSchema` from the query rows onward: build the live data, then
run the pure synthesis tail. -/
def getNeo4jSchemaFromRecords (d : IntrospectionData) (domain : Option DomainArg) :
    SchemaOutput :=
  getNeo4jSchemaPure (liveOf d) domain

/-- The set of names in a TypeCount list. -/
def namesFinset (l : List TypeCount) : Finset String := (l.map TypeCount.type).toFinset

/-- The set of keys of a property index. -/
def keysFinset (l : List (String × List String)) : Finset String := (l.map Prod.fst).toFinset

/-- The orphan-free invariant of the spec: node TypeCount names and node
PropertyIndex keys coincide as sets, and likewise for relationships. -/
def orphanFree (out : SchemaOutput) : Prop :=
  namesFinset out.nodeTypes = keysFinset out.nodeProperties ∧
  namesFinset out.relationshipTypes = keysFinset out.relationshipProperties

instance (out : SchemaOutput) : Decidable (orphanFree out) := by
  unfold orphanFree; infer_instance

theorem mem_jsSetDedupGo (l seen : List String) (s : String) :
    s ∈ jsSetDedupGo l seen ↔ s ∈ l ∧ s ∉ seen := by
  induction l generalizing seen with
  | nil => simp [jsSetDedupGo]
  | cons x xs ih =>
    simp only [jsSetDedupGo]
    split
    · rename_i hx
      rw [ih]
      simp only [List.mem_cons]
      constructor
      · rintro ⟨h1, h2⟩
        exact ⟨Or.inr h1, h2⟩
      · rintro ⟨h1, h2⟩
        rcases h1 with rfl | h1
        · exact absurd hx h2
        · exact ⟨h1, h2⟩
    · rename_i hx
      simp only [List.mem_cons, ih, List.mem_cons, not_or]
      constructor
      · rintro (rfl | ⟨h1, h2, h3⟩)
        · exact ⟨Or.inl rfl, hx⟩
        · exact ⟨Or.inr h1, h3⟩
      · rintro ⟨rfl | h1, h2⟩
        · exact Or.inl rfl
        · by_cases hsx : s = x
          · exact Or.inl hsx
          · exact Or.inr ⟨h1, hsx, h2⟩

theorem mem_jsSetDedup (l : List String) (s : String) :
    s ∈ jsSetDedup l ↔ s ∈ l := by
  simp [jsSetDedup, mem_jsSetDedupGo]

theorem nodup_jsSetDedupGo (l : List String) : ∀ seen, (jsSetDedupGo l seen).Nodup := by
  induction l with
  | nil => intro seen; simp [jsSetDedupGo]
  | cons x xs ih =>
    intro seen
    simp only [jsSetDedupGo]
    split
    · exact ih seen
    · refine List.nodup_cons.mpr ⟨?_, ih (x :: seen)⟩
      intro hmem
      exact ((mem_jsSetDedupGo xs (x :: seen) x).mp hmem).2 (List.mem_cons_self x seen)

theorem nodup_jsSetDedup (l : List String) : (jsSetDedup l).Nodup :=
  nodup_jsSetDedupGo l []

theorem allTypesFor_go (tax : String → List String) (l : List String) (acc : List String) :
    l.foldl (fun acc d => acc ++ tax d) acc = acc ++ l.flatMap tax := by
  induction l generalizing acc with
  | nil => simp
  | cons d ds ih => simp [ih, List.flatMap_cons, List.append_assoc]

theorem allTypesFor_eq (tax : String → List String) (vd : List String) :
    allTypesFor tax vd = vd.flatMap tax := by
  simp [allTypesFor, allTypesFor_go]

theorem mem_allTypesFor (tax : String → List String) (vd : List String) (s : String) :
    s ∈ allTypesFor tax vd ↔ ∃ d ∈ vd, s ∈ tax d := by
  simp [allTypesFor_eq, List.mem_flatMap]


theorem map_fst_filteredProps (lp : List (String × List String)) (u : List String) :
    (filteredProps lp u).map Prod.fst = u := by
  unfold filteredProps
  induction u with
  | nil => rfl
  | cons t ts ih => simp only [List.map_cons] at ih ⊢; rw [ih]

theorem map_type_mk0 (l : List String) :
    (l.map fun t => ({ type := t, count := 0 } : TypeCount)).map TypeCount.type = l := by
  induction l with
  | nil => rfl
  | cons t ts ih => simp only [List.map_cons] at ih ⊢; rw [ih]

theorem map_type_filter_contains (liveTC : List TypeCount) (u : List String) :
    (liveTC.filter fun nt => u.contains nt.type).map TypeCount.type
      = (liveTC.map TypeCount.type).filter fun t => u.contains t := by
  rw [List.filter_map]
  rfl

theorem mem_map_type_completeTypes (liveTC : List TypeCount) (u : List String) (s : String) :
    s ∈ (completeTypes liveTC u).map TypeCount.type ↔ s ∈ u := by
  simp only [completeTypes, List.map_append, List.mem_append, map_type_filter_contains,
    map_type_mk0, List.mem_filter]
  constructor
  · rintro (⟨_, hcon⟩ | ⟨hu, _⟩)
    · simpa using hcon
    · exact hu
  · intro hs
    by_cases hex : s ∈ liveTC.map TypeCount.type
    · exact Or.inl ⟨hex, by simpa using hs⟩
    · exact Or.inr ⟨hs, by simpa using hex⟩

theorem nodup_map_type_completeTypes (liveTC : List TypeCount) (u : List String)
    (hl : (liveTC.map TypeCount.type).Nodup) (hu : u.Nodup) :
    ((completeTypes liveTC u).map TypeCount.type).Nodup := by
  simp only [completeTypes, List.map_append, map_type_filter_contains, map_type_mk0]
  refine List.Nodup.append (hl.filter _) (hu.filter _) ?_
  intro s hs1 hs2
  rw [List.mem_filter] at hs1 hs2
  have habs := hs2.2
  simp only [Bool.not_eq_eq_eq_not, Bool.not_true] at habs
  exact absurd hs1.1 (by simpa using habs)

theorem length_filter_type_completeTypes (liveTC : List TypeCount) (u : List String) (s : String)
    (hl : (liveTC.map TypeCount.type).Nodup) (hu : u.Nodup) (hs : s ∈ u) :
    ((completeTypes liveTC u).filter fun tc => tc.type == s).length = 1 := by
  have h1 : ((completeTypes liveTC u).filter fun tc => tc.type == s).length
      = ((completeTypes liveTC u).map TypeCount.type).count s := by
    rw [List.count, List.countP_map, ← List.countP_eq_length_filter]
    rfl
  rw [h1]
  exact List.count_eq_one_of_mem (nodup_map_type_completeTypes liveTC u hl hu)
    ((mem_map_type_completeTypes liveTC u s).mpr hs)

theorem zero_mem_completeTypes (liveTC : List TypeCount) (u : List String) (s : String)
    (hs : s ∈ u) (habs : s ∉ liveTC.map TypeCount.type) :
    ({ type := s, count := 0 } : TypeCount) ∈ completeTypes liveTC u := by
  simp only [completeTypes, List.mem_append, List.mem_map, List.mem_filter]
  exact Or.inr ⟨s, ⟨hs, by simpa using habs⟩, rfl⟩

theorem assocLookup_eq_none (lp : List (String × List String)) (s : String)
    (habs : s ∉ lp.map Prod.fst) : assocLookup lp s = none := by
  simp only [assocLookup, Option.map_eq_none']
  rw [List.find?_eq_none]
  intro p hp hbeq
  exact habs (List.mem_map.mpr ⟨p, hp, by simpa using hbeq⟩)

theorem empty_mem_filteredProps (lp : List (String × List String)) (u : List String) (s : String)
    (hs : s ∈ u) (habs : s ∉ lp.map Prod.fst) :
    (s, ([] : List String)) ∈ filteredProps lp u := by
  simp only [filteredProps, List.mem_map]
  exact ⟨s, hs, by simp [assocLookup_eq_none lp s habs]⟩

theorem getNeo4jSchemaPure_of_valid_nil (live : LiveData) (domain : Option DomainArg)
    (h : validDomainsOf domain = []) :
    getNeo4jSchemaPure live domain = fullOutput live := by
  cases domain with
  | none => simp [getNeo4jSchemaPure, domainTruthy]
  | some arg =>
    cases arg with
    | str s =>
      by_cases hs : s = ""
      · subst hs
        simp [getNeo4jSchemaPure, domainTruthy]
      · simp only [validDomainsOf, DomainArg.toList, List.elem_eq_mem] at h
        simp [getNeo4jSchemaPure, domainTruthy, hs, DomainArg.toList, List.elem_eq_mem, h]
    | arr l =>
      simp only [validDomainsOf, DomainArg.toList, List.elem_eq_mem] at h
      simp [getNeo4jSchemaPure, domainTruthy, DomainArg.toList, List.elem_eq_mem, h]

theorem getNeo4jSchemaPure_of_valid_ne_nil (live : LiveData) (domain : Option DomainArg)
    (h : validDomainsOf domain ≠ []) :
    getNeo4jSchemaPure live domain = scopedOutput live (validDomainsOf domain) := by
  cases domain with
  | none => simp [validDomainsOf] at h
  | some arg =>
    cases arg with
    | str s =>
      have hs : s ≠ "" := by
        rintro rfl
        exact h (by decide)
      simp only [validDomainsOf, DomainArg.toList, List.elem_eq_mem] at h ⊢
      simp [getNeo4jSchemaPure, domainTruthy, hs, DomainArg.toList, List.elem_eq_mem,
        List.length_eq_zero, h]
    | arr l =>
      simp only [validDomainsOf, DomainArg.toList, List.elem_eq_mem] at h ⊢
      simp [getNeo4jSchemaPure, domainTruthy, DomainArg.toList, List.elem_eq_mem,
        List.length_eq_zero, h]

theorem orphanFree_scopedOutput (live : LiveData) (vd : List String) :
    orphanFree (scopedOutput live vd) := by
  constructor
  · show namesFinset (scopedOutput live vd).nodeTypes = keysFinset (scopedOutput live vd).nodeProperties
    simp only [scopedOutput, namesFinset, keysFinset, map_fst_filteredProps]
    ext s
    rw [List.mem_toFinset, List.mem_toFinset]
    exact mem_map_type_completeTypes _ _ s
  · show namesFinset (scopedOutput live vd).relationshipTypes
        = keysFinset (scopedOutput live vd).relationshipProperties
    simp only [scopedOutput, namesFinset, keysFinset, map_fst_filteredProps]
    ext s
    rw [List.mem_toFinset, List.mem_toFinset]
    exact mem_map_type_completeTypes _ _ s

/-- C1 (counterexample): the orphan-free invariant fails for an unscoped
output.  A store holding one `Foo` node with no properties yields a node
TypeCount row for `Foo` but no node-properties row at all (the `UNWIND` of an
empty key list drops the row), and the unscoped branch echoes that live data
verbatim, so the name sets differ. -/
theorem C1_counterexample :
    ¬ orphanFree (getNeo4jSchemaFromRecords
        { nodeTypeRecords := [("Foo", 1)], nodePropertyRecords := [],
          relTypeRecords := [], relPropertyRecords := [] } none) := by
  decide

/-- C1 (amended): every domain-scoped output of `getNeo4jSchema` is
orphan-free (node TypeCount names and node PropertyIndex keys coincide as
sets, likewise for relationships); an unscoped or fallback output echoes the
live introspection data unchanged, hence it is orphan-free exactly when that
data already is. -/
theorem C1_orphan_free_amended (d : IntrospectionData) (domain : Option DomainArg) :
    ((getNeo4jSchemaFromRecords d domain).domains.isSome →
      orphanFree (getNeo4jSchemaFromRecords d domain)) ∧
    (orphanFree (fullOutput (liveOf d)) → orphanFree (getNeo4jSchemaFromRecords d domain)) := by
  by_cases h : validDomainsOf domain = []
  · rw [getNeo4jSchemaFromRecords, getNeo4jSchemaPure_of_valid_nil _ _ h]
    exact ⟨fun hsome => by simp [fullOutput] at hsome, fun hfull => hfull⟩
  · rw [getNeo4jSchemaFromRecords, getNeo4jSchemaPure_of_valid_ne_nil _ _ h]
    exact ⟨fun _ => orphanFree_scopedOutput _ _, fun _ => orphanFree_scopedOutput _ _⟩

/-- C1 witness: both amended implications at concrete inputs — a scoped
request for domain `mind`, and an unscoped request over orphan-free live
data. -/
theorem C1_orphan_free_amended_witness :
    orphanFree (getNeo4jSchemaFromRecords
      { nodeTypeRecords := [("Hypothesis", 2)], nodePropertyRecords := [("Hypothesis", ["text"])],
        relTypeRecords := [], relPropertyRecords := [] } (some (DomainArg.str "mind"))) ∧
    orphanFree (getNeo4jSchemaFromRecords
      { nodeTypeRecords := [("A", 1)], nodePropertyRecords := [("A", ["x"])],
        relTypeRecords := [("R", 1)], relPropertyRecords := [("R", ["y"])] } none) :=
  ⟨(C1_orphan_free_amended _ _).1 (by decide), (C1_orphan_free_amended _ _).2 (by decide)⟩

/-- C2: when a request yields at least one valid domain, any type name
declared by some requested valid domain appears exactly once in the scoped
TypeCount list — per-domain taxonomy lists are unioned with duplicates
removed — for node types and relationship types alike (live introspection
rows carry distinct names, being grouped by name). -/
theorem C2_union_dedup (live : LiveData) (domain : Option DomainArg) (dn dr n m : String)
    (hnodupN : (live.nodeTypes.map TypeCount.type).Nodup)
    (hnodupR : (live.relationshipTypes.map TypeCount.type).Nodup)
    (hdn : dn ∈ validDomainsOf domain) (hn : n ∈ DOMAIN_NODE_TYPES dn)
    (hdr : dr ∈ validDomainsOf domain) (hm : m ∈ DOMAIN_RELATIONSHIP_TYPES dr) :
    ((getNeo4jSchemaPure live domain).nodeTypes.filter fun tc => tc.type == n).length = 1 ∧
    ((getNeo4jSchemaPure live domain).relationshipTypes.filter fun tc => tc.type == m).length = 1 := by
  have hne : validDomainsOf domain ≠ [] := by
    intro hnil
    rw [hnil] at hdn
    exact absurd hdn (List.not_mem_nil dn)
  rw [getNeo4jSchemaPure_of_valid_ne_nil live domain hne]
  simp only [scopedOutput]
  constructor
  · refine length_filter_type_completeTypes _ _ n hnodupN (nodup_jsSetDedup _) ?_
    rw [mem_jsSetDedup, mem_allTypesFor]
    exact ⟨dn, hdn, hn⟩
  · refine length_filter_type_completeTypes _ _ m hnodupR (nodup_jsSetDedup _) ?_
    rw [mem_jsSetDedup, mem_allTypesFor]
    exact ⟨dr, hdr, hm⟩

/-- C2 witness: domains `crypto` and `media` share the node type `Event` and
the relationship type `INFLUENCED_BY`; each appears exactly once in the
scoped output. -/
theorem C2_union_dedup_witness :
    "crypto" ∈ validDomainsOf (some (DomainArg.arr ["crypto", "media"])) ∧
    "Event" ∈ DOMAIN_NODE_TYPES "crypto" ∧ "Event" ∈ DOMAIN_NODE_TYPES "media" ∧
    ((getNeo4jSchemaPure ⟨[], [], [], []⟩
        (some (DomainArg.arr ["crypto", "media"]))).nodeTypes.filter
          fun tc => tc.type == "Event").length = 1 ∧
    ((getNeo4jSchemaPure ⟨[], [], [], []⟩
        (some (DomainArg.arr ["crypto", "media"]))).relationshipTypes.filter
          fun tc => tc.type == "INFLUENCED_BY").length = 1 := by
  have h := C2_union_dedup ⟨[], [], [], []⟩ (some (DomainArg.arr ["crypto", "media"]))
    "crypto" "crypto" "Event" "INFLUENCED_BY" (by decide) (by decide) (by decide)
    (by decide) (by decide) (by decide)
  exact ⟨by decide, by decide, by decide, h.1, h.2⟩

/-- C3: when a request yields at least one valid domain, every name declared
by the taxonomy of a requested valid domain appears among the scoped
TypeCount names and PropertyIndex keys; a name absent from the live data is
zero-filled with count 0, and a name without live properties gets the empty
property list — for nodes and relationships alike. -/
theorem C3_zero_fill (live : LiveData) (domain : Option DomainArg) (d n m : String)
    (hd : d ∈ validDomainsOf domain)
    (hn : n ∈ DOMAIN_NODE_TYPES d) (hm : m ∈ DOMAIN_RELATIONSHIP_TYPES d) :
    (∃ tc ∈ (getNeo4jSchemaPure live domain).nodeTypes, tc.type = n) ∧
    n ∈ (getNeo4jSchemaPure live domain).nodeProperties.map Prod.fst ∧
    (n ∉ live.nodeTypes.map TypeCount.type →
      ({ type := n, count := 0 } : TypeCount) ∈ (getNeo4jSchemaPure live domain).nodeTypes) ∧
    (n ∉ live.nodeProperties.map Prod.fst →
      (n, ([] : List String)) ∈ (getNeo4jSchemaPure live domain).nodeProperties) ∧
    (∃ tc ∈ (getNeo4jSchemaPure live domain).relationshipTypes, tc.type = m) ∧
    m ∈ (getNeo4jSchemaPure live domain).relationshipProperties.map Prod.fst ∧
    (m ∉ live.relationshipTypes.map TypeCount.type →
      ({ type := m, count := 0 } : TypeCount) ∈ (getNeo4jSchemaPure live domain).relationshipTypes) ∧
    (m ∉ live.relationshipProperties.map Prod.fst →
      (m, ([] : List String)) ∈ (getNeo4jSchemaPure live domain).relationshipProperties) := by
  have hne : validDomainsOf domain ≠ [] := by
    intro hnil
    rw [hnil] at hd
    exact absurd hd (List.not_mem_nil d)
  rw [getNeo4jSchemaPure_of_valid_ne_nil live domain hne]
  simp only [scopedOutput]
  have hun : n ∈ jsSetDedup (allTypesFor DOMAIN_NODE_TYPES (validDomainsOf domain)) := by
    rw [mem_jsSetDedup, mem_allTypesFor]
    exact ⟨d, hd, hn⟩
  have hum : m ∈ jsSetDedup (allTypesFor DOMAIN_RELATIONSHIP_TYPES (validDomainsOf domain)) := by
    rw [mem_jsSetDedup, mem_allTypesFor]
    exact ⟨d, hd, hm⟩
  refine ⟨?_, ?_, ?_, ?_, ?_, ?_, ?_, ?_⟩
  · exact List.mem_map.mp ((mem_map_type_completeTypes _ _ n).mpr hun)
  · rw [map_fst_filteredProps]
    exact hun
  · exact fun habs => zero_mem_completeTypes _ _ n hun habs
  · exact fun habs => empty_mem_filteredProps _ _ n hun habs
  · exact List.mem_map.mp ((mem_map_type_completeTypes _ _ m).mpr hum)
  · rw [map_fst_filteredProps]
    exact hum
  · exact fun habs => zero_mem_completeTypes _ _ m hum habs
  · exact fun habs => empty_mem_filteredProps _ _ m hum habs

/-- C3 witness: with an empty live dataset and domain `code`, the taxonomy
names `Codebase` and `IMPORTS` appear zero-filled: count 0 and empty
property list. -/
theorem C3_zero_fill_witness :
    "code" ∈ validDomainsOf (some (DomainArg.str "code")) ∧
    ({ type := "Codebase", count := 0 } : TypeCount) ∈
      (getNeo4jSchemaPure ⟨[], [], [], []⟩ (some (DomainArg.str "code"))).nodeTypes ∧
    ("Codebase", ([] : List String)) ∈
      (getNeo4jSchemaPure ⟨[], [], [], []⟩ (some (DomainArg.str "code"))).nodeProperties ∧
    ({ type := "IMPORTS", count := 0 } : TypeCount) ∈
      (getNeo4jSchemaPure ⟨[], [], [], []⟩ (some (DomainArg.str "code"))).relationshipTypes ∧
    ("IMPORTS", ([] : List String)) ∈
      (getNeo4jSchemaPure ⟨[], [], [], []⟩ (some (DomainArg.str "code"))).relationshipProperties := by
  have h := C3_zero_fill ⟨[], [], [], []⟩ (some (DomainArg.str "code")) "code"
    "Codebase" "IMPORTS" (by decide) (by decide) (by decide)
  exact ⟨by decide, h.2.2.1 (by decide), h.2.2.2.1 (by decide),
    h.2.2.2.2.2.2.1 (by decide), h.2.2.2.2.2.2.2 (by decide)⟩

/-- C4: unknown domain identifiers are silently dropped — filtering the
requested list down to the valid identifiers leaves the result unchanged —
and when no valid identifier remains the result is identical to the
no-scope (full, unfiltered) case. -/
theorem C4_lenient_fallback (live : LiveData) (ds : List String) :
    getNeo4jSchemaPure live (some (DomainArg.arr ds)) =
      getNeo4jSchemaPure live
        (some (DomainArg.arr (ds.filter fun d => VALID_DOMAINS.contains d))) ∧
    ((∀ d ∈ ds, d ∉ VALID_DOMAINS) →
      getNeo4jSchemaPure live (some (DomainArg.arr ds)) = getNeo4jSchemaPure live none) := by
  have hval : validDomainsOf (some (DomainArg.arr (ds.filter fun d => VALID_DOMAINS.contains d)))
      = validDomainsOf (some (DomainArg.arr ds)) := by
    simp only [validDomainsOf, DomainArg.toList]
    rw [List.filter_filter]
    exact List.filter_congr fun a _ => by rw [Bool.and_self]
  constructor
  · by_cases h : validDomainsOf (some (DomainArg.arr ds)) = []
    · rw [getNeo4jSchemaPure_of_valid_nil live _ h,
        getNeo4jSchemaPure_of_valid_nil live _ (hval.trans h)]
    · rw [getNeo4jSchemaPure_of_valid_ne_nil live _ h,
        getNeo4jSchemaPure_of_valid_ne_nil live _ (fun hc => h (hval ▸ hc)), hval]
  · intro hinv
    have h : validDomainsOf (some (DomainArg.arr ds)) = [] := by
      simp only [validDomainsOf, DomainArg.toList]
      rw [List.filter_eq_nil_iff]
      intro a ha
      simpa using hinv a ha
    rw [getNeo4jSchemaPure_of_valid_nil live _ h,
      getNeo4jSchemaPure_of_valid_nil live none rfl]

/-- C4 witness: a request naming only `not-a-real-domain` returns the
identical result to the no-scope case. -/
theorem C4_lenient_fallback_witness :
    (∀ d ∈ ["not-a-real-domain"], d ∉ VALID_DOMAINS) ∧
    getNeo4jSchemaPure ⟨[{ type := "Person", count := 3 }], [("Person", ["name"])], [], []⟩
        (some (DomainArg.arr ["not-a-real-domain"])) =
      getNeo4jSchemaPure ⟨[{ type := "Person", count := 3 }], [("Person", ["name"])], [], []⟩
        none :=
  ⟨by decide,
    (C4_lenient_fallback ⟨[{ type := "Person", count := 3 }], [("Person", ["name"])], [], []⟩
      ["not-a-real-domain"]).2 (by decide)⟩

/-- C5: whenever the requested-domains argument is absent, falsy, or left
empty by validation, the synthesis returns exactly the live TypeCount lists
and PropertyIndexes, unmodified, with no `domains` field. -/
theorem C5_no_scope_identity (live : LiveData) (domain : Option DomainArg)
    (h : validDomainsOf domain = []) :
    getNeo4jSchemaPure live domain =
      { domains := none
        nodeTypes := live.nodeTypes
        nodeProperties := live.nodeProperties
        relationshipTypes := live.relationshipTypes
        relationshipProperties := live.relationshipProperties } :=
  getNeo4jSchemaPure_of_valid_nil live domain h

/-- C5 witness: the no-scope identity at a concrete live dataset. -/
theorem C5_no_scope_identity_witness :
    validDomainsOf none = [] ∧
    getNeo4jSchemaPure
        ⟨[{ type := "Person", count := 3 }], [("Person", ["name"])],
         [{ type := "KNOWS", count := 2 }], [("KNOWS", ["since"])]⟩ none =
      { domains := none
        nodeTypes := [{ type := "Person", count := 3 }]
        nodeProperties := [("Person", ["name"])]
        relationshipTypes := [{ type := "KNOWS", count := 2 }]
        relationshipProperties := [("KNOWS", ["since"])] } :=
  ⟨rfl, C5_no_scope_identity _ none rfl⟩

/-- C6: a scoped request with at least one valid domain echoes in `domains`
exactly the post-filter requested identifiers, in request order, duplicates
preserved, while the unioned node and relationship name lists are
duplicate-free. -/
theorem C6_domain_echo (live : LiveData) (ds : List String)
    (h : ds.filter (fun d => VALID_DOMAINS.contains d) ≠ []) :
    (getNeo4jSchemaPure live (some (DomainArg.arr ds))).domains =
      some (ds.filter fun d => VALID_DOMAINS.contains d) ∧
    ((getNeo4jSchemaPure live (some (DomainArg.arr ds))).nodeProperties.map Prod.fst).Nodup ∧
    ((getNeo4jSchemaPure live (some (DomainArg.arr ds))).relationshipProperties.map
        Prod.fst).Nodup := by
  rw [getNeo4jSchemaPure_of_valid_ne_nil live (some (DomainArg.arr ds))
    (show validDomainsOf (some (DomainArg.arr ds)) ≠ [] from h)]
  refine ⟨rfl, ?_, ?_⟩ <;>
  · simp only [scopedOutput, map_fst_filteredProps]
    exact nodup_jsSetDedup _

/-- C6 witness: requesting `["mind", "mind"]` echoes `domains` as
`["mind", "mind"]`, without dedup of the echo field. -/
theorem C6_domain_echo_witness :
    (["mind", "mind"].filter (fun d => VALID_DOMAINS.contains d) ≠ []) ∧
    (getNeo4jSchemaPure ⟨[], [], [], []⟩ (some (DomainArg.arr ["mind", "mind"]))).domains =
      some ["mind", "mind"] := by
  have h := (C6_domain_echo ⟨[], [], [], []⟩ ["mind", "mind"] (by decide)).1
  exact ⟨by decide, h.trans (by decide)⟩

/-- A JavaScript runtime value as passed in a Cypher parameter object:
numbers (modelled as rationals), strings, booleans, null, arrays, plain
objects, and the store driver integer produced by `neo4j.int`. -/
inductive JsValue where
  | num (q : ℚ)
  | str (s : String)
  | boolean (b : Bool)
  | null
  | neoInt (n : ℤ)
  | arr (items : List JsValue)
  | obj (fields : List (String × JsValue))

/-- `processParams` (lines 50-72): numbers become `neo4j.int(Math.floor(v))`,
plain objects are processed recursively, arrays have only their directly
numeric items converted, and everything else passes through unchanged. -/
def processParams : List (String × JsValue) → List (String × JsValue)
  | [] => []
  | (k, v) :: rest =>
    let pv : JsValue :=
      match v with
      | JsValue.num q => JsValue.neoInt ⌊q⌋
      | JsValue.obj fields => JsValue.obj (processParams fields)
      | JsValue.arr items => JsValue.arr (items.map fun item =>
          match item with
          | JsValue.num q => JsValue.neoInt ⌊q⌋
          | other => other)
      | other => other
    (k, pv) :: processParams rest

mutual

/-- The normalization described by the spec (section 4.2), stated from its
words for comparison with `processParams`: every numeric value, including
numbers nested inside objects and arrays recursively at any depth, is
floored into the store integer representation; non-numeric values pass
through unchanged. -/
def specNormalizeValue : JsValue → JsValue
  | JsValue.num q => JsValue.neoInt ⌊q⌋
  | JsValue.obj fields => JsValue.obj (specNormalizeFields fields)
  | JsValue.arr items => JsValue.arr (specNormalizeItems items)
  | other => other

/-- Spec-side normalization of the entries of a parameter object. -/
def specNormalizeFields : List (String × JsValue) → List (String × JsValue)
  | [] => []
  | (k, v) :: rest => (k, specNormalizeValue v) :: specNormalizeFields rest

/-- Spec-side normalization of the items of an array. -/
def specNormalizeItems : List JsValue → List JsValue
  | [] => []
  | v :: rest => specNormalizeValue v :: specNormalizeItems rest

end

mutual

/-- No array anywhere in the value contains a nested object or array. -/
def arraysFlat : JsValue → Bool
  | JsValue.obj fields => arraysFlatFields fields
  | JsValue.arr items => arraysFlatItems items
  | _ => true

/-- `arraysFlat` over the entries of an object. -/
def arraysFlatFields : List (String × JsValue) → Bool
  | [] => true
  | (_, v) :: rest => arraysFlat v && arraysFlatFields rest

/-- Every item of the array is non-composite. -/
def arraysFlatItems : List JsValue → Bool
  | [] => true
  | v :: rest =>
      (match v with
       | JsValue.obj _ => false
       | JsValue.arr _ => false
       | _ => true) && arraysFlatItems rest

end

theorem map_shallow_eq_specNormalizeItems (items : List JsValue)
    (h : arraysFlatItems items = true) :
    (items.map fun item =>
      match item with
      | JsValue.num q => JsValue.neoInt ⌊q⌋
      | other => other) = specNormalizeItems items := by
  induction items with
  | nil => rfl
  | cons v rest ih =>
    cases v with
    | obj fields => simp [arraysFlatItems] at h
    | arr items2 => simp [arraysFlatItems] at h
    | num q =>
      simp only [arraysFlatItems, Bool.true_and] at h
      simp only [List.map_cons, specNormalizeItems, specNormalizeValue, ih h]
    | str s =>
      simp only [arraysFlatItems, Bool.true_and] at h
      simp only [List.map_cons, specNormalizeItems, specNormalizeValue, ih h]
    | boolean b =>
      simp only [arraysFlatItems, Bool.true_and] at h
      simp only [List.map_cons, specNormalizeItems, specNormalizeValue, ih h]
    | null =>
      simp only [arraysFlatItems, Bool.true_and] at h
      simp only [List.map_cons, specNormalizeItems, specNormalizeValue, ih h]
    | neoInt n =>
      simp only [arraysFlatItems, Bool.true_and] at h
      simp only [List.map_cons, specNormalizeItems, specNormalizeValue, ih h]

theorem processParams_flat_aux :
    ∀ (N : Nat) (params : List (String × JsValue)), sizeOf params ≤ N →
      arraysFlatFields params = true →
      processParams params = specNormalizeFields params := by
  intro N
  induction N with
  | zero =>
    intro params hsz _
    cases params with
    | nil => simp [processParams, specNormalizeFields]
    | cons p rest =>
      refine absurd hsz ?_
      simp only [List.cons.sizeOf_spec, not_le]
      omega
  | succ n ih =>
    intro params hsz hflat
    cases params with
    | nil => simp [processParams, specNormalizeFields]
    | cons p rest =>
      obtain ⟨k, v⟩ := p
      simp only [arraysFlatFields, Bool.and_eq_true] at hflat
      have hszrest : sizeOf rest ≤ n := by
        simp only [List.cons.sizeOf_spec] at hsz
        omega
      have htail := ih rest hszrest hflat.2
      cases v with
      | num q => simp [processParams, specNormalizeFields, specNormalizeValue, htail]
      | str s => simp [processParams, specNormalizeFields, specNormalizeValue, htail]
      | boolean b => simp [processParams, specNormalizeFields, specNormalizeValue, htail]
      | null => simp [processParams, specNormalizeFields, specNormalizeValue, htail]
      | neoInt i => simp [processParams, specNormalizeFields, specNormalizeValue, htail]
      | obj fields =>
        have hszf : sizeOf fields ≤ n := by
          simp only [List.cons.sizeOf_spec, Prod.mk.sizeOf_spec, JsValue.obj.sizeOf_spec] at hsz
          omega
        have hf : arraysFlatFields fields = true := by
          have := hflat.1
          simpa only [arraysFlat] using this
        simp [processParams, specNormalizeFields, specNormalizeValue, htail, ih fields hszf hf]
      | arr items =>
        have hi : arraysFlatItems items = true := by
          have := hflat.1
          simpa only [arraysFlat] using this
        simp [processParams, specNormalizeFields, specNormalizeValue, htail,
          map_shallow_eq_specNormalizeItems items hi]

/-- C7 (counterexample): a number nested inside an object inside an array is
not normalised — `processParams` does not recurse into array elements, so it
differs from the fully recursive normalization the spec describes on the
parameter object `a: [ x: 3.2 ]`. -/
theorem C7_counterexample :
    processParams [("a", JsValue.arr [JsValue.obj [("x", JsValue.num 3.2)]])] ≠
      specNormalizeFields [("a", JsValue.arr [JsValue.obj [("x", JsValue.num 3.2)]])] := by
  simp [processParams, specNormalizeFields, specNormalizeValue, specNormalizeItems]

/-- C7 (amended): for parameter objects whose arrays hold only non-composite
items, `processParams` agrees with the fully recursive spec normalization —
every number at any object-nesting depth and at array top level is floored
into the store integer, every non-number passes through unchanged.  (Numbers
inside objects or arrays nested within arrays are NOT normalised; see the
counterexample.) -/
theorem C7_numeric_normalization_amended (params : List (String × JsValue))
    (h : arraysFlatFields params = true) :
    processParams params = specNormalizeFields params :=
  processParams_flat_aux (sizeOf params) params le_rfl h

/-- C7 witness: the parameter object `limit: 5.9, nested: x: 3.2` is
normalised by flooring, matching the spec-side transform. -/
theorem C7_numeric_normalization_amended_witness :
    arraysFlatFields
        [("limit", JsValue.num 5.9), ("nested", JsValue.obj [("x", JsValue.num 3.2)])] = true ∧
    processParams
        [("limit", JsValue.num 5.9), ("nested", JsValue.obj [("x", JsValue.num 3.2)])] =
      specNormalizeFields
        [("limit", JsValue.num 5.9), ("nested", JsValue.obj [("x", JsValue.num 3.2)])] :=
  ⟨by simp [arraysFlatFields, arraysFlat],
   C7_numeric_normalization_amended _ (by simp [arraysFlatFields, arraysFlat])⟩

/-- The module-level connection state of `neo4j-client.ts`: the
`let driver: Driver | null = null` variable (line 8), with driver creation
modelled by allocating fresh identifiers and `driver.close()` calls recorded
in `closeCalls`. -/
structure DriverState where
  driver : Option Nat
  nextId : Nat
  closeCalls : List Nat
  deriving DecidableEq, Repr

/-- The three `process.env` values read by `getDriver` (lines 11-13). -/
structure Env where
  uri : Option String
  user : Option String
  password : Option String
  deriving DecidableEq, Repr

/-- JS truthiness of an optional environment string: `undefined` and the
empty string are falsy. -/
def envTruthy : Option String → Bool
  | none => false
  | some s => !(s == "")

/-- All three connection values are present (the negation of the guard on
line 15). -/
def envOk (env : Env) : Bool :=
  envTruthy env.uri && envTruthy env.user && envTruthy env.password

/-- `getDriver` (lines 10-23): throw when a connection value is missing or
empty; otherwise create the driver lazily (`if (!driver) driver = ...`) and
return it, reusing the existing handle when one is present. -/
def getDriver (env : Env) (s : DriverState) : Except String (Nat × DriverState) :=
  if !(envTruthy env.uri) || !(envTruthy env.user) || !(envTruthy env.password) then
    Except.error
      "Missing Neo4j connection details in environment variables (NEO4J_URI, NEO4J_USER, NEO4J_PASSWORD)"
  else
    match s.driver with
    | some d => Except.ok (d, s)
    | none =>
        Except.ok (s.nextId,
          { driver := some s.nextId, nextId := s.nextId + 1, closeCalls := s.closeCalls })

/-- `closeDriver` (lines 25-31): when a driver is present, call its `close`
(recorded in `closeCalls`) and reset the variable to null; otherwise do
nothing. -/
def closeDriver (s : DriverState) : DriverState :=
  match s.driver with
  | some d => { driver := none, nextId := s.nextId, closeCalls := d :: s.closeCalls }
  | none => s

theorem closeDriver_driver (s : DriverState) : (closeDriver s).driver = none := by
  unfold closeDriver
  cases h : s.driver <;> simp [h]

theorem closeDriver_of_none (s : DriverState) (h : s.driver = none) : closeDriver s = s := by
  unfold closeDriver
  rw [h]

/-- C8: the teardown is idempotent — a second `closeDriver` in succession is
the identity (it calls no `close` and raises nothing), and `closeDriver` on a
never-initialised or already-closed state is a no-op. -/
theorem C8_idempotent_teardown (s : DriverState) :
    closeDriver (closeDriver s) = closeDriver s ∧
    (s.driver = none → closeDriver s = s) :=
  ⟨closeDriver_of_none _ (closeDriver_driver s), fun h => closeDriver_of_none s h⟩

/-- C8 witness: double teardown from a live state, and teardown of a
never-initialised state. -/
theorem C8_idempotent_teardown_witness :
    closeDriver (closeDriver { driver := some 0, nextId := 1, closeCalls := [] }) =
      closeDriver { driver := some 0, nextId := 1, closeCalls := [] } ∧
    closeDriver { driver := none, nextId := 0, closeCalls := [] } =
      { driver := none, nextId := 0, closeCalls := [] } :=
  ⟨(C8_idempotent_teardown _).1, (C8_idempotent_teardown _).2 rfl⟩

/-- Well-formedness of the connection state: all recorded identifiers were
allocated below `nextId`, and the live driver, when present, was allocated
and never closed. -/
def DriverWF (s : DriverState) : Prop :=
  (∀ d ∈ s.closeCalls, d < s.nextId) ∧
  (∀ d, s.driver = some d → d < s.nextId ∧ d ∉ s.closeCalls)

theorem closeDriver_nextId (s : DriverState) : (closeDriver s).nextId = s.nextId := by
  unfold closeDriver
  cases h : s.driver <;> simp [h]

theorem closeDriver_closeCalls_lt (s : DriverState) (hwf : DriverWF s) :
    ∀ d ∈ (closeDriver s).closeCalls, d < s.nextId := by
  unfold closeDriver
  cases h : s.driver with
  | none => exact hwf.1
  | some d0 =>
    simp only
    intro d hd
    rcases List.mem_cons.mp hd with rfl | hd
    · exact (hwf.2 d h).1
    · exact hwf.1 d hd

/-- C10: the driver variable lifecycle — with connection values present,
`getDriver` reuses a present handle without touching the state, `closeDriver`
resets the variable to null and preserves well-formedness, and a subsequent
`getDriver` after teardown succeeds with a fresh handle that is not any
previously closed one. -/
theorem C10_driver_lifecycle (env : Env) (s : DriverState) (hwf : DriverWF s)
    (henv : envOk env = true) :
    (∀ d, s.driver = some d → getDriver env s = Except.ok (d, s)) ∧
    (closeDriver s).driver = none ∧
    DriverWF (closeDriver s) ∧
    (∃ d2 s2, getDriver env (closeDriver s) = Except.ok (d2, s2) ∧
      s2.driver = some d2 ∧ d2 ∉ (closeDriver s).closeCalls ∧ DriverWF s2) := by
  simp only [envOk, Bool.and_eq_true] at henv
  have hguard : (!(envTruthy env.uri) || !(envTruthy env.user) || !(envTruthy env.password))
      = false := by
    rw [henv.1.1, henv.1.2, henv.2]
    rfl
  have hlt := closeDriver_closeCalls_lt s hwf
  refine ⟨?_, closeDriver_driver s, ?_, ?_⟩
  · intro d hd
    unfold getDriver
    rw [hguard, hd]
    rfl
  · refine ⟨?_, ?_⟩
    · intro d hd
      rw [closeDriver_nextId]
      exact hlt d hd
    · intro d hd
      rw [closeDriver_driver] at hd
      exact absurd hd (by simp)
  · unfold getDriver
    rw [hguard, closeDriver_driver s]
    refine ⟨(closeDriver s).nextId, _, rfl, rfl, ?_, ?_, ?_⟩
    · intro hmem
      have := hlt _ hmem
      rw [closeDriver_nextId] at this
      omega
    · intro d hd
      have hin := hlt d hd
      show d < (closeDriver s).nextId + 1
      rw [closeDriver_nextId]
      omega
    · intro d hd
      simp only [Option.some.injEq] at hd
      subst hd
      constructor
      · simp
      · intro hmem
        have := hlt _ hmem
        rw [closeDriver_nextId] at this
        omega

/-- C10 witness: reuse of a live handle, the null reset after teardown, and
the fresh handle allocated after teardown. -/
theorem C10_driver_lifecycle_witness :
    getDriver { uri := some "bolt://localhost:7687", user := some "neo4j", password := some "pw" }
        { driver := some 0, nextId := 1, closeCalls := [] } =
      Except.ok (0, { driver := some 0, nextId := 1, closeCalls := [] }) ∧
    (closeDriver { driver := some 0, nextId := 1, closeCalls := [] }).driver = none ∧
    getDriver { uri := some "bolt://localhost:7687", user := some "neo4j", password := some "pw" }
        (closeDriver { driver := some 0, nextId := 1, closeCalls := [] }) =
      Except.ok (1, { driver := some 1, nextId := 2, closeCalls := [0] }) := by
  have h := C10_driver_lifecycle
    { uri := some "bolt://localhost:7687", user := some "neo4j", password := some "pw" }
    { driver := some 0, nextId := 1, closeCalls := [] }
    (by constructor
        · intro d hd
          simp at hd
        · intro d hd
          simp only [Option.some.injEq] at hd
          subst hd
          exact ⟨Nat.zero_lt_one, by simp⟩)
    (by decide)
  exact ⟨h.1 0 rfl, h.2.1, by rfl⟩

/-- A result row, as returned by `record.toObject()`. -/
abbrev Row := List (String × JsValue)

/-- `runCypherQuery` (lines 74-96) with the store session call abstracted as
`storeRun`.  `getDriver` runs before the try block, so its failure
propagates raw with no session opened; inside the try block the parameters
are normalised, one session is opened, the store is called, and the
`finally` clause closes the session on success and failure alike; a store
rejection is re-thrown with the `Failed to execute Cypher query:` prefix.
The two trailing numbers count sessions opened and sessions closed. -/
def runCypherQueryOp (env : Env) (st : DriverState)
    (storeRun : String → List (String × JsValue) → Except String (List Row))
    (query : String) (params : List (String × JsValue)) :
    Except String (List Row) × DriverState × Nat × Nat :=
  match getDriver env st with
  | Except.error e => (Except.error e, st, 0, 0)
  | Except.ok (_, st2) =>
    match storeRun query (processParams params) with
    | Except.ok records => (Except.ok records, st2, 1, 1)
    | Except.error msg =>
        (Except.error ("Failed to execute Cypher query: " ++ msg), st2, 1, 1)

/-- `getNeo4jSchema` (lines 167-350) with the four introspection queries
abstracted as one `introspect` result.  `getDriver` runs before the try
block; a store rejection is re-thrown with the `Failed to fetch Neo4j
schema:` prefix; the `finally` clause closes the session either way. -/
def getNeo4jSchemaOp (env : Env) (st : DriverState)
    (introspect : Except String IntrospectionData) (domain : Option DomainArg) :
    Except String SchemaOutput × DriverState × Nat × Nat :=
  match getDriver env st with
  | Except.error e => (Except.error e, st, 0, 0)
  | Except.ok (_, st2) =>
    match introspect with
    | Except.ok data => (Except.ok (getNeo4jSchemaPure (liveOf data) domain), st2, 1, 1)
    | Except.error msg =>
        (Except.error ("Failed to fetch Neo4j schema: " ++ msg), st2, 1, 1)

/-- The content part of an MCP tool response: result rows, a schema object,
or an error message text. -/
inductive ToolContent where
  | rows (records : List Row)
  | schema (output : SchemaOutput)
  | message (text : String)

/-- An MCP tool response: content plus the `isError` flag (absent, i.e.
false, on success). -/
structure ToolResponse where
  content : ToolContent
  isError : Bool

/-- The `run_cypher_query` tool handler of the entry point: default the
params to the empty object, run the query, and catch any rejection into a
structured `Error running query:` payload with `isError: true`. -/
def runCypherQueryTool (env : Env) (st : DriverState)
    (storeRun : String → List (String × JsValue) → Except String (List Row))
    (query : String) (params : Option (List (String × JsValue))) :
    ToolResponse × DriverState × Nat × Nat :=
  match runCypherQueryOp env st storeRun query (params.getD []) with
  | (Except.ok records, st2, o, c) =>
      ({ content := ToolContent.rows records, isError := false }, st2, o, c)
  | (Except.error msg, st2, o, c) =>
      ({ content := ToolContent.message ("Error running query: " ++ msg), isError := true },
        st2, o, c)

/-- The `get_graph_schema` tool handler of the entry point: run the schema
synthesis and catch any rejection into a structured `Error getting schema:`
payload with `isError: true`. -/
def getGraphSchemaTool (env : Env) (st : DriverState)
    (introspect : Except String IntrospectionData) (domain : Option DomainArg) :
    ToolResponse × DriverState × Nat × Nat :=
  match getNeo4jSchemaOp env st introspect domain with
  | (Except.ok output, st2, o, c) =>
      ({ content := ToolContent.schema output, isError := false }, st2, o, c)
  | (Except.error msg, st2, o, c) =>
      ({ content := ToolContent.message ("Error getting schema: " ++ msg), isError := true },
        st2, o, c)

/-- C9: whatever error either operation raises, each tool handler answers
with a structured failure payload — the error text and the `isError` flag —
instead of propagating, and every call balances its store sessions: the
number of sessions closed equals the number opened, also on the failing
path. -/
theorem C9_structured_failure (env : Env) (st : DriverState)
    (storeRun : String → List (String × JsValue) → Except String (List Row))
    (query : String) (params : Option (List (String × JsValue)))
    (introspect : Except String IntrospectionData) (domain : Option DomainArg) :
    (∀ msg, (runCypherQueryOp env st storeRun query (params.getD [])).1 = Except.error msg →
      (runCypherQueryTool env st storeRun query params).1.content =
        ToolContent.message ("Error running query: " ++ msg) ∧
      (runCypherQueryTool env st storeRun query params).1.isError = true) ∧
    (runCypherQueryTool env st storeRun query params).2.2.2 =
      (runCypherQueryTool env st storeRun query params).2.2.1 ∧
    (∀ msg, (getNeo4jSchemaOp env st introspect domain).1 = Except.error msg →
      (getGraphSchemaTool env st introspect domain).1.content =
        ToolContent.message ("Error getting schema: " ++ msg) ∧
      (getGraphSchemaTool env st introspect domain).1.isError = true) ∧
    (getGraphSchemaTool env st introspect domain).2.2.2 =
      (getGraphSchemaTool env st introspect domain).2.2.1 := by
  refine ⟨?_, ?_, ?_, ?_⟩
  · intro msg hmsg
    unfold runCypherQueryTool
    cases hop : runCypherQueryOp env st storeRun query (params.getD []) with
    | mk res rest =>
      rw [hop] at hmsg
      cases res with
      | ok records => exact absurd hmsg (by simp)
      | error e =>
        obtain ⟨st2, o, c⟩ := rest
        have he : e = msg := by
          simpa using hmsg
        subst he
        exact ⟨rfl, rfl⟩
  · unfold runCypherQueryTool runCypherQueryOp
    cases getDriver env st with
    | error e => rfl
    | ok pr =>
      obtain ⟨d, st2⟩ := pr
      cases storeRun query (processParams (params.getD [])) with
      | ok records => rfl
      | error msg => rfl
  · intro msg hmsg
    unfold getGraphSchemaTool
    cases hop : getNeo4jSchemaOp env st introspect domain with
    | mk res rest =>
      rw [hop] at hmsg
      cases res with
      | ok output => exact absurd hmsg (by simp)
      | error e =>
        obtain ⟨st2, o, c⟩ := rest
        have he : e = msg := by
          simpa using hmsg
        subst he
        exact ⟨rfl, rfl⟩
  · unfold getGraphSchemaTool getNeo4jSchemaOp
    cases getDriver env st with
    | error e => rfl
    | ok pr =>
      obtain ⟨d, st2⟩ := pr
      cases introspect with
      | ok data => rfl
      | error msg => rfl

/-- C9 witness: a store rejection and a failing introspection are both
reported as structured failure payloads, with the session balance intact. -/
theorem C9_structured_failure_witness :
    (runCypherQueryTool { uri := some "bolt://x", user := some "u", password := some "p" }
        { driver := some 0, nextId := 1, closeCalls := [] }
        (fun _ _ => Except.error "Syntax error") "MATCH (n) RETUR n" none).1.content =
      ToolContent.message
        ("Error running query: " ++ ("Failed to execute Cypher query: " ++ "Syntax error")) ∧
    (getGraphSchemaTool { uri := some "bolt://x", user := some "u", password := some "p" }
        { driver := some 0, nextId := 1, closeCalls := [] }
        (Except.error "connection lost") none).1.isError = true := by
  have h := C9_structured_failure { uri := some "bolt://x", user := some "u", password := some "p" }
    { driver := some 0, nextId := 1, closeCalls := [] }
    (fun _ _ => Except.error "Syntax error") "MATCH (n) RETUR n" none
    (Except.error "connection lost") none
  exact ⟨(h.1 ("Failed to execute Cypher query: " ++ "Syntax error") rfl).1,
    (h.2.2.1 ("Failed to fetch Neo4j schema: " ++ "connection lost") rfl).2⟩
